import Mathlib

set_option maxRecDepth 16384

/-!
Verification of the PS5 NOR Modifier core against its specification.

This file gives a shallow embedding of the two core modules:

* `src/nor_handler.py` (`NorHandler`): an in-memory byte image with
  offset-based ASCII field reads/writes and derived accessors
  (serial number, motherboard serial, edition flags, MAC addresses);
* `src/uart_handler.py` (`UartHandler`): serial command framing with
  checksum, error-response handling, error-code validation, and the
  two-tier error-code cache (local database file plus remote lookup).

Modelling conventions:

* A byte image is a function `Nat → Nat` together with a size; Python
  slicing (which silently truncates at the buffer end) is `pySlice`.
* Python exceptions become `Except` errors.  A raised exception carries
  `message` and `details`; where the source wraps an inner exception `e`
  with `str(e)`, the model stores the inner message string as the detail.
* External effects are parameters: the serial device's response line is a
  `String` argument (already decoded and stripped, as `readline().decode().strip()`
  produces), the remote HTTP service is a `RemoteResult` argument, and the
  on-disk error-code database file is the `file` field of `DbState`
  (structurally, as the list of pairs `save_error_codes` writes).
* Integer offsets are `Nat`; the source's `offset < 0` guard is vacuous.
-/

/-- Byte image: `data i` is the byte at index `i` (indices `≥ size` are never
read by in-bounds accesses); models the `bytearray` in `NorHandler.nor_data`. -/
structure Image where
  data : Nat → Nat
  size : Nat

/-- State of a `NorHandler`: the optionally loaded NOR image. -/
structure NorState where
  norData : Option Image

/-- Model of the `NorError` exception dataclass: message plus optional detail. -/
structure NorError where
  message : String
  details : Option String
deriving DecidableEq

/-- Offset constant `NorHandler.OFFSET_ONE` (edition flag A). -/
def OFFSET_ONE : Nat := 0x1c7010

/-- Offset constant `NorHandler.OFFSET_TWO` (edition flag B). -/
def OFFSET_TWO : Nat := 0x1c7030

/-- Offset constant `NorHandler.WIFI_MAC_OFFSET`. -/
def WIFI_MAC_OFFSET : Nat := 0x1C73C0

/-- Offset constant `NorHandler.LAN_MAC_OFFSET`. -/
def LAN_MAC_OFFSET : Nat := 0x1C4020

/-- Offset constant `NorHandler.SERIAL_OFFSET`. -/
def SERIAL_OFFSET : Nat := 0x1c7210

/-- Offset constant `NorHandler.MOBO_SERIAL_OFFSET`. -/
def MOBO_SERIAL_OFFSET : Nat := 0x1C7200

/-- Length constant `NorHandler.SERIAL_LENGTH`. -/
def SERIAL_LENGTH : Nat := 16

/-- Length constant `NorHandler.MAC_LENGTH`. -/
def MAC_LENGTH : Nat := 6

/-- Python slice `data[a:b]` on a bytearray: silently truncated at the end of
the buffer, empty when the range is empty or starts past the end. -/
def pySlice (img : Image) (a b : Nat) : List Nat :=
  (List.range' a (min b img.size - a)).map img.data

/-- Python `bytes.decode("ascii", errors="ignore")`: bytes `≥ 0x80` are
dropped, the remaining bytes become the corresponding characters. -/
def asciiDecodeIgnore (bs : List Nat) : List Char :=
  (bs.filter (fun b => b < 128)).map Char.ofNat

/-- Test for the NUL character, the argument of `.strip("\x00")`. -/
def isNul (c : Char) : Bool := c == '\x00'

/-- Python `str.strip(arg)`: removes matching characters from BOTH ends of the
string (leading and trailing), leaving interior occurrences in place. -/
def pyStrip (p : Char → Bool) (l : List Char) : List Char :=
  ((l.dropWhile p).reverse.dropWhile p).reverse

/-- The `.strip("\x00")` applied by `NorHandler._read_string` after decoding. -/
def stripNul (l : List Char) : List Char := pyStrip isNul l

/-- Python `str.encode("ascii")`: fails iff some character is non-ASCII. -/
def asciiEncode (s : String) : Except Unit (List Nat) :=
  if s.data.all (fun c => c.toNat < 128) then Except.ok (s.data.map Char.toNat)
  else Except.error ()

/-- Boolean test for an `Except` being in the error case (a raised exception). -/
def isErr {ε α : Type} : Except ε α → Bool
  | Except.error _ => true
  | Except.ok _ => false

/-- Translation of `NorHandler._read_string`.  The body raises `NorError` for a
missing/empty buffer or an out-of-range access; those raises happen inside the
method's `try`, whose final handler `except Exception` catches them and
re-raises `NorError("Unexpected error reading string", str(e))` — so every
failure leaves the method with that outer message and the inner message as the
detail.  (The `except UnicodeDecodeError` branch is dead: decoding with
`errors="ignore"` cannot raise.)  In bounds, the selected bytes are decoded as
ASCII with undecodable bytes ignored and NULs are stripped from both ends. -/
def read_string (s : NorState) (offset length : Nat) : Except NorError String :=
  match s.norData with
  | none => Except.error ⟨"Unexpected error reading string", some "No NOR data loaded"⟩
  | some img =>
    if img.size = 0 then
      Except.error ⟨"Unexpected error reading string", some "No NOR data loaded"⟩
    else if offset + length > img.size then
      Except.error ⟨"Unexpected error reading string",
        some ("Invalid offset " ++ toString offset ++ " or length " ++ toString length)⟩
    else
      Except.ok (String.mk (stripNul (asciiDecodeIgnore (pySlice img offset (offset + length)))))

/-- Translation of `NorHandler._write_string`: bounds-checked, ASCII-encoding,
length-checked write that right-pads the value with NUL bytes to exactly
`length` and overwrites the byte range in place (the buffer size is unchanged
because the replacement has exactly the length of the replaced slice).  As in
`read_string`, `NorError`s raised in the `try` body are re-wrapped by the
final `except Exception` handler; an encoding failure is wrapped by the
dedicated `except UnicodeEncodeError` handler instead. -/
def write_string (s : NorState) (offset : Nat) (value : String) (length : Nat) :
    Except NorError Bool × NorState :=
  match s.norData with
  | none => (Except.error ⟨"Unexpected error writing string", some "No NOR data loaded"⟩, s)
  | some img =>
    if img.size = 0 then
      (Except.error ⟨"Unexpected error writing string", some "No NOR data loaded"⟩, s)
    else if offset + length > img.size then
      (Except.error ⟨"Unexpected error writing string",
        some ("Invalid offset " ++ toString offset ++ " or length " ++ toString length)⟩, s)
    else
      match asciiEncode value with
      | Except.error _ =>
        (Except.error ⟨"Failed to encode string: " ++ value, none⟩, s)
      | Except.ok bytes =>
        if bytes.length > length then
          (Except.error ⟨"Unexpected error writing string",
            some ("String too long: " ++ toString bytes.length ++ " > " ++ toString length)⟩, s)
        else
          (Except.ok true,
            ⟨some ⟨fun i => if offset ≤ i ∧ i < offset + length then
                (bytes ++ List.replicate (length - bytes.length) 0).getD (i - offset) 0
              else img.data i,
              img.size⟩⟩)

/-- Translation of `NorHandler.get_serial_number`: reads the 16-byte serial
field, re-wrapping any `NorError` with added context.  The method performs no
assignment to `self.nor_data`, so the handler state is returned unchanged. -/
def get_serial_number (s : NorState) : Except NorError String × NorState :=
  (match read_string s SERIAL_OFFSET SERIAL_LENGTH with
   | Except.error e => Except.error ⟨"Failed to read serial number", some e.message⟩
   | Except.ok v => Except.ok v, s)

/-- Translation of `NorHandler.get_motherboard_serial`. -/
def get_motherboard_serial (s : NorState) : Except NorError String × NorState :=
  (match read_string s MOBO_SERIAL_OFFSET SERIAL_LENGTH with
   | Except.error e => Except.error ⟨"Failed to read motherboard serial", some e.message⟩
   | Except.ok v => Except.ok v, s)

/-- Translation of `NorHandler.get_version`: reads the two one-byte edition
flags through `_read_string`; `("1","1")` is Disc, `("0","0")` is Digital,
anything else readable is `"Unknown"`.  A failing flag read raises a wrapped
`NorError` (the `except NorError` branch) rather than returning a value. -/
def get_version (s : NorState) : Except NorError String × NorState :=
  match read_string s OFFSET_ONE 1 with
  | Except.error e => (Except.error ⟨"Failed to read version", some e.message⟩, s)
  | Except.ok v1 =>
    match read_string s OFFSET_TWO 1 with
    | Except.error e => (Except.error ⟨"Failed to read version", some e.message⟩, s)
    | Except.ok v2 =>
      if v1 = "1" ∧ v2 = "1" then (Except.ok "Disc Edition", s)
      else if v1 = "0" ∧ v2 = "0" then (Except.ok "Digital Edition", s)
      else (Except.ok "Unknown", s)

/-- Python format `f"{b:02x}"`: lowercase hex digits, zero-padded to width 2. -/
def byteHex (b : Nat) : String :=
  let ds := Nat.toDigits 16 b
  String.mk (if ds.length = 1 then '0' :: ds else ds)

/-- Translation of `NorHandler.get_wifi_mac`: slices 6 bytes at the WiFi MAC
offset WITHOUT a bounds check (Python slicing silently truncates) and joins
the two-digit lowercase hex of each byte with colons. -/
def get_wifi_mac (s : NorState) : Except NorError String × NorState :=
  match s.norData with
  | none => (Except.error ⟨"Failed to read WiFi MAC", some "No NOR data loaded"⟩, s)
  | some img =>
    if img.size = 0 then
      (Except.error ⟨"Failed to read WiFi MAC", some "No NOR data loaded"⟩, s)
    else
      (Except.ok (String.intercalate ":"
        ((pySlice img WIFI_MAC_OFFSET (WIFI_MAC_OFFSET + MAC_LENGTH)).map byteHex)), s)

/-- Translation of `NorHandler.get_lan_mac`: same shape as `get_wifi_mac` at
the LAN MAC offset, likewise without a bounds check. -/
def get_lan_mac (s : NorState) : Except NorError String × NorState :=
  match s.norData with
  | none => (Except.error ⟨"Failed to read LAN MAC", some "No NOR data loaded"⟩, s)
  | some img =>
    if img.size = 0 then
      (Except.error ⟨"Failed to read LAN MAC", some "No NOR data loaded"⟩, s)
    else
      (Except.ok (String.intercalate ":"
        ((pySlice img LAN_MAC_OFFSET (LAN_MAC_OFFSET + MAC_LENGTH)).map byteHex)), s)

/-- Python `str.startswith(pre)`. -/
def pyStartsWith (pre s : String) : Bool := pre.data.isPrefixOf s.data

/-- Helper for `pySplit`: splits the character list at every separator. -/
def pySplitAux (sep : Char) : List Char → List Char → List String
  | [], acc => [String.mk acc.reverse]
  | c :: rest, acc =>
    if c = sep then String.mk acc.reverse :: pySplitAux sep rest []
    else pySplitAux sep rest (c :: acc)

/-- Python `str.split(sep)` for a one-character separator: splits at every
occurrence, keeping empty pieces (so the empty string yields `[""]`). -/
def pySplit (sep : Char) (s : String) : List String := pySplitAux sep s.data []

/-- Python slicing `s[n:]` by characters. -/
def pyDropChars (n : Nat) (s : String) : String := String.mk (s.data.drop n)

/-- Model of the `UartError` exception dataclass: message plus optional detail. -/
structure UartError where
  message : String
  details : Option String
deriving DecidableEq

/-- Structural model of a parsed XML document of the error-code schema: the
root tag plus, for each `errorCode` element, the text of its `ErrorCode` and
`Description` children (`none` when the child element is absent). -/
structure XmlDoc where
  rootTag : String
  entries : List (Option String × Option String)
deriving DecidableEq

/-- Outcome of one HTTP request to the remote lookup service: transport
failure (`requests.RequestException`), or a status code with the parse result
of the body (`none` models an `ET.ParseError`). -/
inductive RemoteResult where
  | failure : RemoteResult
  | success : Nat → Option XmlDoc → RemoteResult
deriving DecidableEq

/-- State of the error-code store of a `UartHandler`: the in-memory dict
`error_codes_db` (insertion-ordered association list with unique keys) and
the on-disk database file at `db_path` (`none` when the file does not exist;
otherwise, structurally, the (code, description) pairs the XML file holds). -/
structure DbState where
  db : List (String × String)
  file : Option (List (String × String))
deriving DecidableEq

/-- Python dict assignment `m[k] = v`: overwrites in place if the key exists,
otherwise appends (insertion order preserved). -/
def dictInsert : List (String × String) → String → String → List (String × String)
  | [], k, v => [(k, v)]
  | (k₁, v₁) :: rest, k, v =>
    if k₁ = k then (k, v) :: rest else (k₁, v₁) :: dictInsert rest k v

/-- Python `k in m` for the dict. -/
def dictContains (m : List (String × String)) (k : String) : Bool :=
  m.any (fun p => p.1 == k)

/-- Python `m[k]` for the dict (callers only use it after a membership test). -/
def dictGet (m : List (String × String)) (k : String) : String :=
  ((m.find? (fun p => p.1 == k)).map Prod.snd).getD ""

/-- The keys of the dict, in insertion order. -/
def dictKeys (m : List (String × String)) : List String := m.map Prod.fst

/-- Test for a character of `[0-9A-F]`. -/
def isUpperHexDigit (c : Char) : Bool :=
  (decide ('0' ≤ c) && decide (c ≤ '9')) || (decide ('A' ≤ c) && decide (c ≤ 'F'))

/-- Translation of `UartHandler.validate_error_code`: Python
`re.match(r"^[0-9A-F]{8}$", error_code.upper())`.  `.upper()` is modelled
character-wise by `Char.toUpper` (they agree on ASCII).  In Python `$` also
matches just before a single trailing newline, so besides 8 hex digits the
regex accepts 8 hex digits followed by one line feed. -/
def validate_error_code (s : String) : Bool :=
  let u := s.data.map Char.toUpper
  (u.length == 8 && u.all isUpperHexDigit)
    || (u.length == 9 && u.getLast? == some '\n' && (u.take 8).all isUpperHexDigit)

/-- Translation of `UartHandler.validate_command`: non-empty and free of
line breaks. -/
def validate_command (c : String) : Bool :=
  !(c == "") && !(c.data.contains '\n')

/-- Python format `f"{b:02X}"`: uppercase hex digits, zero-padded to width 2. -/
def byteHexUpper (b : Nat) : String :=
  let ds := (Nat.toDigits 16 b).map Char.toUpper
  String.mk (if ds.length = 1 then '0' :: ds else ds)

/-- Translation of `UartHandler.calculate_checksum`: appends `":"` and the sum
of the character codes mod 256 as two uppercase hex digits. -/
def calculate_checksum (data : String) : String :=
  data ++ ":" ++ byteHexUpper ((data.data.map Char.toNat).foldl (fun a b => a + b) 0 % 256)

/-- Python `str.strip()` (no argument): removes leading and trailing
whitespace.  Modelled with `Char.isWhitespace` (ASCII whitespace). -/
def pyStripWs (s : String) : String :=
  String.mk (pyStrip Char.isWhitespace s.data)

/-- Translation of `UartHandler.save_error_codes`: rewrites the whole database
file from the in-memory dict (modelled as replacing the file contents). -/
def save_error_codes (s : DbState) : DbState :=
  { s with file := some s.db }

/-- Translation of `UartHandler.load_error_codes`: if the file exists, merge
its (code, description) pairs into the in-memory dict (no clearing, no code
validation); a missing file is a silent no-op. -/
def load_error_codes (s : DbState) : Except UartError Unit × DbState :=
  match s.file with
  | none => (Except.ok (), s)
  | some pairs =>
    (Except.ok (), { s with db := pairs.foldl (fun acc p => dictInsert acc p.1 p.2) s.db })

/-- First `errorCode` element whose `ErrorCode` text equals `code` and whose
`Description` child is present, as scanned by the loop in
`UartHandler.get_error_description`. -/
def findDesc : List (Option String × Option String) → String → Option String
  | [], _ => none
  | (some c, some d) :: rest, code => if c = code then some d else findDesc rest code
  | _ :: rest, code => findDesc rest code

/-- Translation of `UartHandler.get_error_description`: rejects invalid codes;
returns the cached description on a hit; otherwise queries the remote service
for the single code and, when a matching entry is found, stores
`(error_code, desc)` in the dict — the key exactly as given, with no case
normalization — persists the database, and returns the description.  A
non-200 status or an absent match falls through to `"Unknown error"`. -/
def get_error_description (s : DbState) (code : String) (remote : RemoteResult) :
    Except UartError String × DbState :=
  if !(validate_error_code code) then
    (Except.error ⟨"Invalid error code format", none⟩, s)
  else if dictContains s.db code then
    (Except.ok (dictGet s.db code), s)
  else
    match remote with
    | RemoteResult.failure =>
      (Except.error ⟨"Failed to fetch error description from online database", none⟩, s)
    | RemoteResult.success status body =>
      if status == 200 then
        match body with
        | none => (Except.error ⟨"Failed to parse error description response", none⟩, s)
        | some doc =>
          if doc.rootTag == "errorCodes" then
            match findDesc doc.entries code with
            | some d =>
              (Except.ok d, save_error_codes { s with db := dictInsert s.db code d })
            | none => (Except.ok "Unknown error", s)
          else (Except.ok "Unknown error", s)
      else (Except.ok "Unknown error", s)

/-- The loop body of `UartHandler.handle_error_response`: strip each
comma-separated code, silently drop the ones failing validation, resolve each
valid one to a two-line block, threading the database state (a raised
`UartError` from the resolver aborts the loop). -/
def resolveCodes (remote : String → RemoteResult) :
    List String → DbState → Except UartError (List String) × DbState
  | [], s => (Except.ok [], s)
  | code :: rest, s =>
    let c := pyStripWs code
    if validate_error_code c then
      match get_error_description s c (remote c) with
      | (Except.ok d, s₁) =>
        match resolveCodes remote rest s₁ with
        | (Except.ok msgs, s₂) =>
          (Except.ok (("Error code: " ++ c ++ "\nDescription: " ++ d) :: msgs), s₂)
        | (Except.error e, s₂) => (Except.error e, s₂)
      | (Except.error e, s₁) => (Except.error e, s₁)
    else resolveCodes remote rest s

/-- Translation of `UartHandler.handle_error_response`: a response starting
with `"ERROR:"` is rewritten into description blocks joined by blank lines;
any other response is passed through unchanged.  Exceptions raised while
resolving are re-wrapped by the method's `except Exception` handler. -/
def handle_error_response (s : DbState) (resp : String) (remote : String → RemoteResult) :
    Except UartError String × DbState :=
  if pyStartsWith "ERROR:" resp then
    match resolveCodes remote (pySplit ',' (pyDropChars 6 resp)) s with
    | (Except.ok msgs, s₁) => (Except.ok (String.intercalate "\n\n" msgs), s₁)
    | (Except.error e, s₁) =>
      (Except.error ⟨"Failed to handle error response", some e.message⟩, s₁)
  else (Except.ok resp, s)

/-- Translation of `UartHandler.send_command`.  `connected` models
`self.connection` being non-`None`; `rawLine` is the device's response line
after `readline().decode().strip()` would apply (the model applies the
`strip()`); the returned list is the frames written to the serial port, so a
call that fails before I/O returns the empty trace.  The not-connected check
precedes command validation, and both precede any write. -/
def send_command (connected : Bool) (s : DbState) (command rawLine : String)
    (remote : String → RemoteResult) : Except UartError String × DbState × List String :=
  if !connected then
    (Except.error ⟨"Not connected to UART device", none⟩, s, [])
  else if !(validate_command command) then
    (Except.error ⟨"Invalid command format", none⟩, s, [])
  else
    let framed := calculate_checksum command ++ "\n"
    match handle_error_response s (pyStripWs rawLine) remote with
    | (Except.ok r, s₁) => (Except.ok r, s₁, [framed])
    | (Except.error e, s₁) =>
      (Except.error ⟨"Unexpected error sending UART command", some e.message⟩, s₁, [framed])

/-- Translation of `UartHandler.get_error_codes`: issues `"get_error_codes"`
through `send_command` and then tests whether the RETURNED response — which
`send_command` has already passed through `handle_error_response` — starts
with `"ERROR:"`; if so it parses the comma-separated codes (stripped, invalid
and empty entries dropped), otherwise it returns the empty list. -/
def get_error_codes (connected : Bool) (s : DbState) (rawLine : String)
    (remote : String → RemoteResult) : Except UartError (List String) × DbState :=
  if !connected then
    (Except.error ⟨"Not connected to UART device", none⟩, s)
  else
    match send_command connected s "get_error_codes" rawLine remote with
    | (Except.error e, s₁, _) =>
      (Except.error ⟨"Failed to get error codes", some e.message⟩, s₁)
    | (Except.ok resp, s₁, _) =>
      if !(resp == "") then
        if pyStartsWith "ERROR:" resp then
          (Except.ok ((pySplit ',' (pyDropChars 6 resp)).map pyStripWs
            |>.filter (fun c => !(c == "") && validate_error_code c)), s₁)
        else (Except.ok [], s₁)
      else (Except.ok [], s₁)

/-- The loop body of `UartHandler.download_error_database`: an entry is kept
iff both children are present and the code text passes validation; the code
is stored exactly as it appears in the payload. -/
def dlStep (acc : List (String × String)) (e : Option String × Option String) :
    List (String × String) :=
  match e with
  | (some c, some d) => if validate_error_code c then dictInsert acc c d else acc
  | _ => acc

/-- Translation of `UartHandler.download_error_database`: on a 200 response
with root tag `errorCodes`, CLEARS the dict, repopulates it from the payload
(validated entries only), persists, and returns `true`; any other well-formed
outcome returns `false` without touching the state; transport and parse
failures raise. -/
def download_error_database (s : DbState) (remote : RemoteResult) :
    Except UartError Bool × DbState :=
  match remote with
  | RemoteResult.failure =>
    (Except.error ⟨"Failed to download error database", none⟩, s)
  | RemoteResult.success status body =>
    if status == 200 then
      match body with
      | none => (Except.error ⟨"Failed to parse error database response", none⟩, s)
      | some doc =>
        if doc.rootTag == "errorCodes" then
          (Except.ok true, save_error_codes { s with db := doc.entries.foldl dlStep [] })
        else (Except.ok false, s)
    else (Except.ok false, s)

/-- Translation of `UartHandler.initialize_error_database` (run by
`__init__`): when the database file already exists the method returns `true`
immediately — it does NOT read the file (`load_error_codes` is never called),
so the in-memory dict stays as it was; only when the file is missing does it
download the full catalog. -/
def init_error_database (s : DbState) (remote : RemoteResult) :
    Except UartError Bool × DbState :=
  match s.file with
  | some _ => (Except.ok true, s)
  | none => download_error_database s remote

/-- The 22 characters accepted (case-insensitively) by the error-code regex. -/
def hexDigitsAnyCase : List Char :=
  ['0', '1', '2', '3', '4', '5', '6', '7', '8', '9',
   'A', 'B', 'C', 'D', 'E', 'F', 'a', 'b', 'c', 'd', 'e', 'f']

/-- Modelled from the spec (§4.1, `readField` for ascii-padded fields):
"strips trailing NUL (0x00) characters" ONLY — kept solely to compare the
specified strip rule with the implemented one (`stripNul`). -/
def specStripTrailingNul (l : List Char) : List Char :=
  (l.reverse.dropWhile isNul).reverse

/-- One-byte image (the byte `0x41`): a loaded, non-empty NOR buffer that is
far shorter than every field offset. -/
def img1 : Image := ⟨fun _ => 65, 1⟩

/-- Handler state holding `img1`. -/
def ns1 : NorState := ⟨some img1⟩

/-- Two-byte image with bytes `[0x00, 0x41]` (a leading NUL). -/
def img2 : Image := ⟨fun i => if i = 1 then 65 else 0, 2⟩

/-- Handler state holding `img2`. -/
def ns2 : NorState := ⟨some img2⟩

/-- Full-sized image whose two edition flag bytes are both `"1"` (0x31) and
whose other bytes are zero. -/
def imgDisc : Image :=
  ⟨fun i => if i = OFFSET_ONE then 49 else if i = OFFSET_TWO then 49 else 0, 0x1c7400⟩

/-- Handler state holding `imgDisc`. -/
def nsDisc : NorState := ⟨some imgDisc⟩

/-- Four-byte all-zero image, used for small write/read round trips. -/
def img4 : Image := ⟨fun _ => 0, 4⟩

/-- Handler state holding `img4`. -/
def ns4 : NorState := ⟨some img4⟩

/-- Database state with one cached code and no database file. -/
def dbC1 : DbState := ⟨[("DEADBEEF", "d")], none⟩

/-- Remote service that always fails at transport level (never consulted in
the concrete runs that use it). -/
def remoteNone : String → RemoteResult := fun _ => RemoteResult.failure

/-- Remote payload carrying one lowercase code. -/
def docLower : XmlDoc := ⟨"errorCodes", [(some "deadbeef", some "X")]⟩

/-- Empty database state, no file. -/
def emptyDb : DbState := ⟨[], none⟩

/-- Database state whose in-memory dict is empty while the on-disk file holds
one entry — the situation at handler construction with a persisted cache. -/
def fileDb : DbState := ⟨[], some [("AAAAAAAA", "some description")]⟩

/-- Remote payload for the full-replace test. -/
def docC8 : XmlDoc := ⟨"errorCodes", [(some "AAAAAAAA", some "x")]⟩

/-- Database state holding a stale code that the new payload lacks. -/
def dbPrior : DbState := ⟨[("11111111", "old")], none⟩

theorem string_mk_data (s : String) : String.mk s.data = s := rfl

theorem exists_replicate_append_dropWhile {α : Type} (p : α → Bool) (c : α)
    (hp : ∀ x, p x = true ↔ x = c) :
    ∀ l : List α, ∃ n, l = List.replicate n c ++ l.dropWhile p := by
  intro l
  induction l with
  | nil => exact ⟨0, rfl⟩
  | cons a l ih =>
    by_cases h : p a = true
    · obtain ⟨n, hn⟩ := ih
      have hac : a = c := (hp a).mp h
      subst hac
      refine ⟨n + 1, ?_⟩
      rw [List.dropWhile_cons, if_pos h, List.replicate_succ, List.cons_append]
      exact congrArg (List.cons a) hn
    · refine ⟨0, ?_⟩
      rw [List.dropWhile_cons, if_neg h]
      simp

theorem head?_dropWhile_ne {α : Type} (p : α → Bool) (c : α)
    (hp : ∀ x, p x = true ↔ x = c) :
    ∀ l : List α, (l.dropWhile p).head? ≠ some c := by
  intro l
  induction l with
  | nil => simp
  | cons a l ih =>
    rw [List.dropWhile_cons]
    by_cases h : p a = true
    · rw [if_pos h]; exact ih
    · rw [if_neg h]
      simp only [List.head?_cons, ne_eq, Option.some.injEq]
      intro hc; exact h ((hp a).mpr hc)

theorem isNul_iff : ∀ x : Char, isNul x = true ↔ x = '\x00' := by
  intro x; simp [isNul]

theorem stripNul_decomp (l : List Char) :
    ∃ a b, l = List.replicate a '\x00' ++ stripNul l ++ List.replicate b '\x00' ∧
      (stripNul l).head? ≠ some '\x00' ∧ (stripNul l).getLast? ≠ some '\x00' := by
  obtain ⟨a, ha⟩ := exists_replicate_append_dropWhile isNul '\x00' isNul_iff l
  obtain ⟨b, hb⟩ :=
    exists_replicate_append_dropWhile isNul '\x00' isNul_iff (l.dropWhile isNul).reverse
  have hsplit : l.dropWhile isNul = stripNul l ++ List.replicate b '\x00' := by
    have h1 := congrArg List.reverse hb
    rw [List.reverse_reverse] at h1
    rw [h1, List.reverse_append, List.reverse_replicate]
    rfl
  refine ⟨a, b, ?_, ?_, ?_⟩
  · conv_lhs => rw [ha, hsplit]
    rw [List.append_assoc]
  · have hhead : (l.dropWhile isNul).head? ≠ some '\x00' :=
      head?_dropWhile_ne isNul '\x00' isNul_iff l
    cases hs : stripNul l with
    | nil => simp
    | cons x xs =>
      rw [hs] at hsplit
      rw [hsplit] at hhead
      simpa using hhead
  · show (((l.dropWhile isNul).reverse.dropWhile isNul).reverse).getLast? ≠ some '\x00'
    rw [List.getLast?_reverse]
    exact head?_dropWhile_ne isNul '\x00' isNul_iff _

theorem dropWhile_eq_self_of_forall {α : Type} (p : α → Bool) (l : List α)
    (h : ∀ x ∈ l, p x = false) : l.dropWhile p = l := by
  induction l with
  | nil => rfl
  | cons a l ih =>
    rw [List.dropWhile_cons, if_neg (by simp [h a (List.mem_cons_self a l)])]

theorem stripNul_of_not_mem (l : List Char) (h : '\x00' ∉ l) : stripNul l = l := by
  have h1 : ∀ x ∈ l, isNul x = false := by
    intro x hx
    cases hh : isNul x
    · rfl
    · exact absurd (((isNul_iff x).mp hh) ▸ hx) h
  show ((l.dropWhile isNul).reverse.dropWhile isNul).reverse = l
  rw [dropWhile_eq_self_of_forall _ l h1,
    dropWhile_eq_self_of_forall _ l.reverse (fun x hx => h1 x (List.mem_reverse.mp hx)),
    List.reverse_reverse]

theorem stripNul_append_replicate (l : List Char) (k : Nat) :
    stripNul (l ++ List.replicate k '\x00') = stripNul l := by
  have hrep : List.dropWhile isNul (List.replicate k '\x00') = [] := by
    rw [List.dropWhile_replicate]
    simp [isNul]
  show ((((l ++ List.replicate k '\x00').dropWhile isNul)).reverse.dropWhile isNul).reverse =
    ((l.dropWhile isNul).reverse.dropWhile isNul).reverse
  rw [List.dropWhile_append]
  by_cases h : (l.dropWhile isNul).isEmpty
  · rw [if_pos h, hrep]
    have h3 : l.dropWhile isNul = [] := by simpa [List.isEmpty_iff] using h
    rw [h3]
  · rw [if_neg h, List.reverse_append, List.reverse_replicate, List.dropWhile_append, hrep]
    simp

theorem pySlice_inbounds (img : Image) (off len : Nat) (h : off + len ≤ img.size) :
    pySlice img off (off + len) = (List.range' off len).map img.data := by
  unfold pySlice
  have h1 : min (off + len) img.size = off + len := Nat.min_eq_left h
  rw [h1, Nat.add_sub_cancel_left]

theorem pySlice_start_oob (img : Image) (a b : Nat) (h : img.size ≤ a) :
    pySlice img a b = [] := by
  unfold pySlice
  have h2 : min b img.size ≤ img.size := Nat.min_le_right _ _
  have h3 : min b img.size - a = 0 := by omega
  rw [h3]
  rfl

theorem map_range'_write (padded : List Nat) (g : Nat → Nat) :
    ∀ off : Nat, (List.range' off padded.length).map
      (fun i => if off ≤ i ∧ i < off + padded.length then padded.getD (i - off) 0 else g i)
      = padded := by
  induction padded with
  | nil => intro off; rfl
  | cons x xs ih =>
    intro off
    have hr : List.range' off (xs.length + 1) = off :: List.range' (off + 1) xs.length :=
      List.range'_succ off xs.length 1
    rw [List.length_cons, hr, List.map_cons]
    congr 1
    · rw [if_pos ⟨Nat.le_refl off, by omega⟩]
      simp
    · refine (List.map_congr_left ?_).trans (ih (off + 1))
      intro i hi
      have hmem := List.mem_range'_1.mp hi
      rw [if_pos (by omega : off ≤ i ∧ i < off + (xs.length + 1)),
        if_pos (by omega : off + 1 ≤ i ∧ i < off + 1 + xs.length)]
      have hio : i - off = (i - (off + 1)) + 1 := by omega
      rw [hio]
      rfl

theorem asciiDecodeIgnore_encoded (v : String) (hv : ∀ c ∈ v.data, c.toNat < 128) (k : Nat) :
    asciiDecodeIgnore (v.data.map Char.toNat ++ List.replicate k 0) =
      v.data ++ List.replicate k '\x00' := by
  unfold asciiDecodeIgnore
  rw [List.filter_append, List.filter_eq_self.mpr, List.filter_eq_self.mpr]
  · rw [List.map_append, List.map_map]
    congr 1
    · conv_rhs => rw [← List.map_id v.data]
      refine List.map_congr_left ?_
      intro c _
      show Char.ofNat c.toNat = c
      exact Char.ofNat_toNat c
    · rw [List.map_replicate]
  · intro a ha
    have := (List.mem_replicate.mp ha).2
    simp [this]
  · intro a ha
    obtain ⟨c, hc, rfl⟩ := List.mem_map.mp ha
    simp [hv c hc]

theorem read_string_oob (s : NorState) (img : Image) (off len : Nat)
    (h : s.norData = some img) (h0 : 0 < img.size) (hb : img.size < off + len) :
    read_string s off len = Except.error ⟨"Unexpected error reading string",
      some ("Invalid offset " ++ toString off ++ " or length " ++ toString len)⟩ := by
  simp only [read_string, h]
  rw [if_neg (by omega), if_pos (by omega)]

theorem read_string_inbounds (s : NorState) (img : Image) (off len : Nat)
    (h : s.norData = some img) (h0 : 0 < img.size) (hb : off + len ≤ img.size) :
    read_string s off len =
      Except.ok (String.mk (stripNul (asciiDecodeIgnore (pySlice img off (off + len))))) := by
  simp only [read_string, h]
  rw [if_neg (by omega), if_neg (by omega)]

theorem write_string_oob (s : NorState) (img : Image) (off len : Nat) (v : String)
    (h : s.norData = some img) (h0 : 0 < img.size) (hb : img.size < off + len) :
    write_string s off v len = (Except.error ⟨"Unexpected error writing string",
      some ("Invalid offset " ++ toString off ++ " or length " ++ toString len)⟩, s) := by
  simp only [write_string, h]
  rw [if_neg (by omega), if_pos (by omega)]

theorem mem_dictKeys_insert (m : List (String × String)) (k v x : String) :
    x ∈ dictKeys (dictInsert m k v) ↔ x ∈ dictKeys m ∨ x = k := by
  induction m with
  | nil => simp [dictInsert, dictKeys]
  | cons p rest ih =>
    obtain ⟨k₁, v₁⟩ := p
    by_cases h : k₁ = k
    · subst h
      have he : dictInsert ((k₁, v₁) :: rest) k₁ v = (k₁, v) :: rest := by
        simp [dictInsert]
      rw [he]
      simp only [dictKeys, List.map_cons, List.mem_cons]
      tauto
    · simp only [dictInsert, if_neg h, dictKeys, List.map_cons, List.mem_cons]
      rw [show (List.map Prod.fst (dictInsert rest k v)) = dictKeys (dictInsert rest k v) from rfl,
        ih]
      rw [show (List.map Prod.fst rest) = dictKeys rest from rfl]
      tauto

theorem mem_dictKeys_foldl_dlStep :
    ∀ (entries : List (Option String × Option String)) (acc : List (String × String))
      (k : String),
      k ∈ dictKeys (entries.foldl dlStep acc) ↔
        k ∈ dictKeys acc ∨
          ∃ d, (some k, some d) ∈ entries ∧ validate_error_code k = true := by
  intro entries
  induction entries with
  | nil => intro acc k; simp
  | cons e rest ih =>
    intro acc k
    rw [List.foldl_cons, ih]
    rcases e with ⟨oc, od⟩
    rcases oc with _ | c
    · constructor
      · rintro (hacc | ⟨d, hd, hvk⟩)
        · exact Or.inl (by simpa [dlStep] using hacc)
        · exact Or.inr ⟨d, List.mem_cons_of_mem _ hd, hvk⟩
      · rintro (hacc | ⟨d, hd, hvk⟩)
        · exact Or.inl (by simpa [dlStep] using hacc)
        · rcases List.mem_cons.mp hd with heq | hmem
          · exact absurd heq (by simp)
          · exact Or.inr ⟨d, hmem, hvk⟩
    · rcases od with _ | d₀
      · constructor
        · rintro (hacc | ⟨d, hd, hvk⟩)
          · exact Or.inl (by simpa [dlStep] using hacc)
          · exact Or.inr ⟨d, List.mem_cons_of_mem _ hd, hvk⟩
        · rintro (hacc | ⟨d, hd, hvk⟩)
          · exact Or.inl (by simpa [dlStep] using hacc)
          · rcases List.mem_cons.mp hd with heq | hmem
            · exact absurd heq (by simp)
            · exact Or.inr ⟨d, hmem, hvk⟩
      · by_cases hv : validate_error_code c = true
        · rw [show dlStep acc (some c, some d₀) = dictInsert acc c d₀ from by
            simp [dlStep, hv], mem_dictKeys_insert]
          constructor
          · rintro ((hacc | rfl) | ⟨d, hd, hvk⟩)
            · exact Or.inl hacc
            · exact Or.inr ⟨d₀, List.mem_cons_self _ _, hv⟩
            · exact Or.inr ⟨d, List.mem_cons_of_mem _ hd, hvk⟩
          · rintro (hacc | ⟨d, hd, hvk⟩)
            · exact Or.inl (Or.inl hacc)
            · rcases List.mem_cons.mp hd with heq | hmem
              · have hk : k = c := by
                  have := congrArg Prod.fst heq
                  simpa using this
                exact Or.inl (Or.inr hk)
              · exact Or.inr ⟨d, hmem, hvk⟩
        · rw [show dlStep acc (some c, some d₀) = acc from by simp [dlStep, hv]]
          constructor
          · rintro (hacc | ⟨d, hd, hvk⟩)
            · exact Or.inl hacc
            · exact Or.inr ⟨d, List.mem_cons_of_mem _ hd, hvk⟩
          · rintro (hacc | ⟨d, hd, hvk⟩)
            · exact Or.inl hacc
            · rcases List.mem_cons.mp hd with heq | hmem
              · have hk : k = c := by
                  have := congrArg Prod.fst heq
                  simpa using this
                subst hk
                exact absurd hvk hv
              · exact Or.inr ⟨d, hmem, hvk⟩

/-- C10: the read accessors `get_serial_number`, `get_motherboard_serial`,
`get_version`, `get_wifi_mac` and `get_lan_mac` never mutate the handler
state: for every state (image loaded or not, reads succeeding or failing) the
image buffer and its length are returned byte-for-byte unchanged. -/
theorem c10_read_accessors_leave_image_unchanged (s : NorState) :
    (get_serial_number s).2 = s ∧ (get_motherboard_serial s).2 = s ∧
    (get_version s).2 = s ∧ (get_wifi_mac s).2 = s ∧ (get_lan_mac s).2 = s := by
  refine ⟨rfl, rfl, ?_, ?_, ?_⟩
  · rcases hr1 : read_string s OFFSET_ONE 1 with e | v1
    · simp [get_version, hr1]
    · rcases hr2 : read_string s OFFSET_TWO 1 with e | v2
      · simp [get_version, hr1, hr2]
      · simp only [get_version, hr1, hr2]
        split_ifs <;> rfl
  · rcases hnd : s.norData with _ | img
    · simp [get_wifi_mac, hnd]
    · simp only [get_wifi_mac, hnd]
      split_ifs <;> rfl
  · rcases hnd : s.norData with _ | img
    · simp [get_lan_mac, hnd]
    · simp only [get_lan_mac, hnd]
      split_ifs <;> rfl

/-- C3 counterexample: with a loaded 1-byte image the WiFi-MAC getter's 6-byte
access at offset 0x1C73C0 lies far outside the image, yet it is NOT rejected:
Python slicing truncates silently and the getter returns the empty string. -/
theorem c3_counterexample_mac_read_not_rejected :
    img1.size < WIFI_MAC_OFFSET + MAC_LENGTH ∧ (get_wifi_mac ns1).1 = Except.ok "" :=
  ⟨by decide, rfl⟩

/-- C3 (amended): `_read_string` and `_write_string` reject every access with
`offset + length > len(image)` with the out-of-bounds `NorError`; the MAC
getters, however, slice without a bounds check and silently truncate — when
the image ends at or before the MAC offset they return the empty string. -/
theorem c3_bounds_checks_and_mac_truncation :
    (∀ (s : NorState) (img : Image) (off len : Nat),
      s.norData = some img → 0 < img.size → img.size < off + len →
      read_string s off len = Except.error ⟨"Unexpected error reading string",
        some ("Invalid offset " ++ toString off ++ " or length " ++ toString len)⟩) ∧
    (∀ (s : NorState) (img : Image) (off len : Nat) (v : String),
      s.norData = some img → 0 < img.size → img.size < off + len →
      write_string s off v len = (Except.error ⟨"Unexpected error writing string",
        some ("Invalid offset " ++ toString off ++ " or length " ++ toString len)⟩, s)) ∧
    (∀ (s : NorState) (img : Image),
      s.norData = some img → 0 < img.size → img.size ≤ WIFI_MAC_OFFSET →
      (get_wifi_mac s).1 = Except.ok "") ∧
    (∀ (s : NorState) (img : Image),
      s.norData = some img → 0 < img.size → img.size ≤ LAN_MAC_OFFSET →
      (get_lan_mac s).1 = Except.ok "") := by
  refine ⟨read_string_oob, write_string_oob, ?_, ?_⟩
  · intro s img h h0 hb
    simp only [get_wifi_mac, h]
    rw [if_neg (by omega), pySlice_start_oob img _ _ hb]
    rfl
  · intro s img h h0 hb
    simp only [get_lan_mac, h]
    rw [if_neg (by omega), pySlice_start_oob img _ _ hb]
    rfl

/-- C3 witness: the bounds rejection and the MAC truncation instantiated on
the loaded 1-byte image. -/
theorem c3_witness :
    img1.size < 0 + 2 ∧
    read_string ns1 0 2 = Except.error ⟨"Unexpected error reading string",
      some ("Invalid offset " ++ toString 0 ++ " or length " ++ toString 2)⟩ ∧
    (get_lan_mac ns1).1 = Except.ok "" :=
  ⟨by decide,
   c3_bounds_checks_and_mac_truncation.1 ns1 img1 0 2 rfl (by decide) (by decide),
   c3_bounds_checks_and_mac_truncation.2.2.2 ns1 img1 rfl (by decide) (by decide)⟩

/-- C2 counterexample: on a loaded image too short to contain the edition
flags, `get_version` raises a wrapped `NorError` instead of returning
`"Unknown"`. -/
theorem c2_counterexample_get_version_raises :
    img1.size ≤ OFFSET_ONE ∧ isErr (get_version ns1).1 = true :=
  ⟨by decide, rfl⟩

theorem get_version_of_reads (s : NorState) (v1 v2 : String)
    (h1 : read_string s OFFSET_ONE 1 = Except.ok v1)
    (h2 : read_string s OFFSET_TWO 1 = Except.ok v2) :
    (get_version s).1 = Except.ok
      (if v1 = "1" ∧ v2 = "1" then "Disc Edition"
       else if v1 = "0" ∧ v2 = "0" then "Digital Edition"
       else "Unknown") := by
  unfold get_version
  rw [h1, h2]
  show (if v1 = "1" ∧ v2 = "1" then ((Except.ok "Disc Edition" : Except NorError String), s)
      else if v1 = "0" ∧ v2 = "0" then ((Except.ok "Digital Edition" : Except NorError String), s)
      else ((Except.ok "Unknown" : Except NorError String), s)).1 = Except.ok
      (if v1 = "1" ∧ v2 = "1" then "Disc Edition"
       else if v1 = "0" ∧ v2 = "0" then "Digital Edition"
       else "Unknown")
  split_ifs <;> rfl

/-- C2 (amended): when both flag bytes are inside the image, `get_version`
never raises and classifies the two flag reads as Disc (`"1"`,`"1"`), Digital
(`"0"`,`"0"`) or `"Unknown"`; but when a flag read fails (image too short),
`get_version` raises a `NorError` instead of returning `"Unknown"`. -/
theorem c2_edition_detection (s : NorState) (img : Image)
    (h : s.norData = some img) (h0 : 0 < img.size) :
    (OFFSET_TWO + 1 ≤ img.size →
      ∃ v1 v2, read_string s OFFSET_ONE 1 = Except.ok v1 ∧
        read_string s OFFSET_TWO 1 = Except.ok v2 ∧
        (get_version s).1 = Except.ok
          (if v1 = "1" ∧ v2 = "1" then "Disc Edition"
           else if v1 = "0" ∧ v2 = "0" then "Digital Edition"
           else "Unknown")) ∧
    (img.size ≤ OFFSET_ONE → isErr (get_version s).1 = true) := by
  constructor
  · intro hb
    have h1 := read_string_inbounds s img OFFSET_ONE 1 h h0 (by
      simp only [OFFSET_ONE]; simp only [OFFSET_TWO] at hb; omega)
    have h2 := read_string_inbounds s img OFFSET_TWO 1 h h0 (by
      simp only [OFFSET_TWO] at hb ⊢; omega)
    exact ⟨_, _, h1, h2, get_version_of_reads s _ _ h1 h2⟩
  · intro hb
    have h1 := read_string_oob s img OFFSET_ONE 1 h h0 (by
      simp only [OFFSET_ONE] at hb ⊢; omega)
    unfold get_version
    rw [h1]
    rfl

/-- C2 witness: on a full-sized image whose flag bytes are both `0x31`, the
edition detection returns Disc Edition. -/
theorem c2_witness_disc_edition :
    OFFSET_TWO + 1 ≤ imgDisc.size ∧ (get_version nsDisc).1 = Except.ok "Disc Edition" := by
  refine ⟨by decide, ?_⟩
  obtain ⟨v1, v2, h1, h2, h3⟩ :=
    (c2_edition_detection nsDisc imgDisc rfl (by decide)).1 (by decide)
  have e1 : read_string nsDisc OFFSET_ONE 1 = Except.ok "1" := by rfl
  have e2 : read_string nsDisc OFFSET_TWO 1 = Except.ok "1" := by rfl
  rw [e1] at h1
  rw [e2] at h2
  injection h1 with hv1
  injection h2 with hv2
  subst hv1
  subst hv2
  rw [h3, if_pos (⟨rfl, rfl⟩ : ("1" : String) = "1" ∧ ("1" : String) = "1")]

/-- C5 counterexample: `_read_string` on the bytes `[0x00, 0x41]` returns
`"A"` — the LEADING NUL is stripped as well (Python `str.strip` trims both
ends) — whereas the claimed trailing-only strip would preserve it and return
`"\x00A"`. -/
theorem c5_counterexample_leading_nul_stripped :
    read_string ns2 0 2 = Except.ok "A" ∧
    String.mk (specStripTrailingNul (asciiDecodeIgnore (pySlice img2 0 2))) = "\x00A" ∧
    ("A" : String) ≠ "\x00A" :=
  ⟨rfl, rfl, by decide⟩

/-- C5 (amended): an in-bounds read decodes the byte range as ASCII ignoring
undecodable bytes and then strips ALL NUL characters from BOTH ends — the
decoded text splits as leading NULs ++ result ++ trailing NULs, where the
result neither starts nor ends with a NUL (so interior NULs are preserved,
but leading NULs are removed too, contrary to the claim). -/
theorem c5_read_strips_nuls_both_ends (s : NorState) (img : Image) (off len : Nat)
    (h : s.norData = some img) (h0 : 0 < img.size) (hb : off + len ≤ img.size) :
    ∃ (r : List Char) (a b : Nat),
      read_string s off len = Except.ok (String.mk r) ∧
      asciiDecodeIgnore (pySlice img off (off + len)) =
        List.replicate a '\x00' ++ r ++ List.replicate b '\x00' ∧
      r.head? ≠ some '\x00' ∧ r.getLast? ≠ some '\x00' := by
  obtain ⟨a, b, hd, hh, hl⟩ := stripNul_decomp (asciiDecodeIgnore (pySlice img off (off + len)))
  exact ⟨stripNul (asciiDecodeIgnore (pySlice img off (off + len))), a, b,
    read_string_inbounds s img off len h h0 hb, hd, hh, hl⟩

/-- C5 witness: the amended claim instantiated on the two-byte image. -/
theorem c5_witness :
    0 + 2 ≤ img2.size ∧ read_string ns2 0 2 = Except.ok "A" := by
  refine ⟨by decide, ?_⟩
  obtain ⟨r, a, b, h1, h2, h3, h4⟩ :=
    c5_read_strips_nuls_both_ends ns2 img2 0 2 rfl (by decide) (by decide)
  exact rfl

/-- C6: write/read round-trip for an in-bounds ascii-padded field.  Writing an
ASCII value of encoded length at most the field length succeeds, and reading
the field back returns the value after the padding/strip rules the code
implements (pad with trailing NULs to the field length, then strip NULs from
both ends); in particular, for every NUL-free ASCII input of length exactly
the field length, the value read back equals the value written. -/
theorem c6_write_read_roundtrip (s : NorState) (img : Image) (off len : Nat) (v : String)
    (h : s.norData = some img) (h0 : 0 < img.size) (hb : off + len ≤ img.size)
    (hascii : ∀ c ∈ v.data, c.toNat < 128) (hlen : v.data.length ≤ len) :
    (write_string s off v len).1 = Except.ok true ∧
    read_string (write_string s off v len).2 off len =
      Except.ok (String.mk (stripNul v.data)) ∧
    (v.data.length = len → '\x00' ∉ v.data →
      read_string (write_string s off v len).2 off len = Except.ok v) := by
  have henc : asciiEncode v = Except.ok (v.data.map Char.toNat) := by
    unfold asciiEncode
    rw [if_pos]
    rw [List.all_eq_true]
    intro c hc
    simpa using hascii c hc
  have hmaplen : (v.data.map Char.toNat).length = v.data.length := List.length_map _ _
  have hw : write_string s off v len = (Except.ok true,
      ⟨some ⟨fun i => if off ≤ i ∧ i < off + len then
          ((v.data.map Char.toNat) ++
            List.replicate (len - (v.data.map Char.toNat).length) 0).getD (i - off) 0
        else img.data i, img.size⟩⟩) := by
    simp only [write_string, h]
    rw [if_neg (by omega), if_neg (by omega)]
    simp only [henc]
    rw [if_neg (by omega)]
  have hsnd : (write_string s off v len).2 =
      ⟨some ⟨fun i => if off ≤ i ∧ i < off + len then
          ((v.data.map Char.toNat) ++
            List.replicate (len - (v.data.map Char.toNat).length) 0).getD (i - off) 0
        else img.data i, img.size⟩⟩ := by
    rw [hw]
  have hread : read_string (write_string s off v len).2 off len =
      Except.ok (String.mk (stripNul v.data)) := by
    rw [hsnd]
    set f : Nat → Nat := fun i => if off ≤ i ∧ i < off + len then
        ((v.data.map Char.toNat) ++
          List.replicate (len - (v.data.map Char.toNat).length) 0).getD (i - off) 0
      else img.data i with hf
    rw [read_string_inbounds ⟨some ⟨f, img.size⟩⟩ ⟨f, img.size⟩ off len rfl h0 hb,
      pySlice_inbounds ⟨f, img.size⟩ off len hb]
    have hproj : Image.data (⟨f, img.size⟩ : Image) = f := rfl
    rw [hproj]
    have hplen : ((v.data.map Char.toNat) ++
        List.replicate (len - (v.data.map Char.toNat).length) 0).length = len := by
      rw [List.length_append, List.length_replicate, List.length_map]
      omega
    have hmap := map_range'_write
      ((v.data.map Char.toNat) ++ List.replicate (len - (v.data.map Char.toNat).length) 0)
      img.data off
    rw [hplen] at hmap
    rw [← hf] at hmap
    rw [hmap, asciiDecodeIgnore_encoded v hascii _, stripNul_append_replicate]
  refine ⟨by rw [hw], hread, fun _ hnonul => ?_⟩
  rw [hread, stripNul_of_not_mem v.data hnonul, string_mk_data]

/-- C6 witness: round trip of the exact-length NUL-free value `"ABCD"` on the
four-byte image. -/
theorem c6_witness :
    0 + 4 ≤ img4.size ∧
    read_string (write_string ns4 0 "ABCD" 4).2 0 4 = Except.ok "ABCD" :=
  ⟨by decide,
   (c6_write_read_roundtrip ns4 img4 0 4 "ABCD" rfl (by decide) (by decide)
     (by decide) (by decide)).2.2 (by decide) (by decide)⟩

/-- C9: on a disconnected link `send_command` fails with the NotConnected
error for EVERY command text (including the empty string and texts containing
line breaks — the check precedes command validation) and writes nothing to
the serial port (empty I/O trace). -/
theorem c9_send_command_not_connected (s : DbState) (cmd rawLine : String)
    (remote : String → RemoteResult) :
    send_command false s cmd rawLine remote =
      (Except.error ⟨"Not connected to UART device", none⟩, s, []) := rfl

/-- C1: `get_error_codes` inspects the response AFTER `send_command` has
already rewritten it through `handle_error_response`, so the raw device line
`"ERROR:DEADBEEF"` — whose code is cached with description `"d"` — has become
a description block by the time the `startswith("ERROR:")` test runs, and the
method returns the empty list where the claim requires `["DEADBEEF"]`. -/
theorem c1_get_error_codes_returns_empty :
    get_error_codes true dbC1 "ERROR:DEADBEEF" remoteNone = (Except.ok [], dbC1) ∧
    handle_error_response dbC1 "ERROR:DEADBEEF" remoteNone =
      (Except.ok "Error code: DEADBEEF\nDescription: d", dbC1) ∧
    (Except.ok ["DEADBEEF"] : Except UartError (List String)) ≠ Except.ok [] :=
  ⟨rfl, rfl, by simp⟩

/-- C4: at handler construction with an existing database file, the
initializer returns `true` WITHOUT consulting the remote service and WITHOUT
loading the file: the in-memory cache stays empty even though the file holds
an entry that `load_error_codes` (never called by the constructor) would have
imported. -/
theorem c4_existing_file_not_loaded :
    (∀ remote : RemoteResult, init_error_database fileDb remote = (Except.ok true, fileDb)) ∧
    fileDb.db = [] ∧
    (load_error_codes fileDb).2.db = [("AAAAAAAA", "some description")] :=
  ⟨fun _ => rfl, rfl, rfl⟩

/-- C7 counterexample: a full download whose payload carries the lowercase
code `"deadbeef"` stores the key in lowercase — cache keys are NOT normalized
to uppercase. -/
theorem c7_counterexample_lowercase_key :
    (download_error_database emptyDb (RemoteResult.success 200 (some docLower))).2.db =
      [("deadbeef", "X")] ∧
    "deadbeef".data.map Char.toUpper ≠ "deadbeef".data :=
  ⟨rfl, by decide⟩

/-- C7 (amended): error-code validation is case-insensitive — every
8-character string of hex digits in any mix of case passes — but the write
paths store keys VERBATIM: the remote write-back of `get_error_description`
inserts the code exactly as passed, and every key `download_error_database`
stores is a payload code kept in its original case (validated, but not
uppercased). -/
theorem c7_case_insensitive_validation_verbatim_storage :
    (∀ s : String, s.data.length = 8 → (∀ c ∈ s.data, c ∈ hexDigitsAnyCase) →
      validate_error_code s = true) ∧
    (∀ (s : DbState) (code d : String) (doc : XmlDoc),
      validate_error_code code = true → dictContains s.db code = false →
      doc.rootTag = "errorCodes" → findDesc doc.entries code = some d →
      get_error_description s code (RemoteResult.success 200 (some doc)) =
        (Except.ok d, ⟨dictInsert s.db code d, some (dictInsert s.db code d)⟩)) ∧
    (∀ (s : DbState) (doc : XmlDoc) (k : String), doc.rootTag = "errorCodes" →
      k ∈ dictKeys (download_error_database s
          (RemoteResult.success 200 (some doc))).2.db →
      validate_error_code k = true ∧ ∃ d, (some k, some d) ∈ doc.entries) := by
  refine ⟨?_, ?_, ?_⟩
  · intro s hlen hmem
    unfold validate_error_code
    have hl : (s.data.map Char.toUpper).length = 8 := by
      rw [List.length_map, hlen]
    have ha : (s.data.map Char.toUpper).all isUpperHexDigit = true := by
      rw [List.all_eq_true]
      intro x hx
      obtain ⟨c, hc, rfl⟩ := List.mem_map.mp hx
      have hcm := hmem c hc
      fin_cases hcm <;> decide
    simp [hl, ha]
  · intro s code d doc hv hc htag hfind
    unfold get_error_description
    rw [hv]
    simp only [Bool.not_true, Bool.false_eq_true, if_false]
    rw [hc]
    simp only [Bool.false_eq_true, if_false]
    have htagb : (doc.rootTag == "errorCodes") = true := by
      rw [htag]; rfl
    simp only [htagb, if_true, hfind]
    rfl
  · intro s doc k htag hk
    have hd : download_error_database s (RemoteResult.success 200 (some doc)) =
        (Except.ok true, save_error_codes { s with db := doc.entries.foldl dlStep [] }) := by
      unfold download_error_database
      have htagb : (doc.rootTag == "errorCodes") = true := by
        rw [htag]; rfl
      simp [htagb]
    rw [hd] at hk
    have hk2 : k ∈ dictKeys (doc.entries.foldl dlStep []) := hk
    rw [mem_dictKeys_foldl_dlStep doc.entries [] k] at hk2
    rcases hk2 with hfalse | ⟨d, hd2, hvk⟩
    · simp [dictKeys] at hfalse
    · exact ⟨hvk, d, hd2⟩

/-- C7 witness: the mixed-case code `"DeadBeef"` passes validation. -/
theorem c7_witness :
    ("DeadBeef" : String).data.length = 8 ∧ validate_error_code "DeadBeef" = true :=
  ⟨by decide,
   c7_case_insensitive_validation_verbatim_storage.1 "DeadBeef" (by decide) (by decide)⟩

/-- C8: a successful full download replaces the cache completely: the call
returns `true`, persists exactly the new in-memory dict to disk, and a code is
a key of the new dict iff the payload carries it (with a description) and it
passes validation — in particular any code cached before the call but absent
from the payload is gone. -/
theorem c8_download_full_replace (s : DbState) (doc : XmlDoc)
    (htag : doc.rootTag = "errorCodes") :
    (download_error_database s (RemoteResult.success 200 (some doc))).1 = Except.ok true ∧
    (download_error_database s (RemoteResult.success 200 (some doc))).2.file =
      some (download_error_database s (RemoteResult.success 200 (some doc))).2.db ∧
    (∀ k, k ∈ dictKeys (download_error_database s
        (RemoteResult.success 200 (some doc))).2.db ↔
      ∃ d, (some k, some d) ∈ doc.entries ∧ validate_error_code k = true) := by
  have hd : download_error_database s (RemoteResult.success 200 (some doc)) =
      (Except.ok true, save_error_codes { s with db := doc.entries.foldl dlStep [] }) := by
    unfold download_error_database
    have htagb : (doc.rootTag == "errorCodes") = true := by
      rw [htag]; rfl
    simp [htagb]
  rw [hd]
  refine ⟨rfl, rfl, ?_⟩
  intro k
  show k ∈ dictKeys (doc.entries.foldl dlStep []) ↔ _
  rw [mem_dictKeys_foldl_dlStep doc.entries [] k]
  simp [dictKeys]

/-- C8 witness: replacing a cache holding the stale code `"11111111"` with a
payload carrying only `"AAAAAAAA"` leaves no trace of the stale code. -/
theorem c8_witness :
    docC8.rootTag = "errorCodes" ∧
    (download_error_database dbPrior (RemoteResult.success 200 (some docC8))).1 =
      Except.ok true ∧
    (download_error_database dbPrior (RemoteResult.success 200 (some docC8))).2.db =
      [("AAAAAAAA", "x")] ∧
    "11111111" ∉ dictKeys
      (download_error_database dbPrior (RemoteResult.success 200 (some docC8))).2.db :=
  ⟨rfl, (c8_download_full_replace dbPrior docC8 rfl).1, rfl, by decide⟩
